import Mathlib

/-!
Verification of skydns-pod-announcer, file `cmd/root.go`.

A shallow embedding of `getIP`, `announceIP` and the `Run` function of `RootCmd`.

Go strings are modelled by Lean strings (the separator `/` and the verb `%v` are ASCII, so
splitting and formatting agree on characters and on bytes).  The operating system and the
registry are an explicit `World`: the hostname lookup, the interface enumeration, the parsing
of the URL by `http.NewRequest` and the client's `Do` are fields of it.  The requests handed
to the client and the requests the client issues to the registry (redirects it follows
included) are recorded in an explicit `Traffic`.
-/

namespace SkydnsPodAnnouncer

/-! ## Data model -/

/-- An error value returned by a library call (`os`, `net`, `net/http`). -/
structure LibError where
  text : String
  deriving DecidableEq, Repr

/-- Go error values seen by this package: `new text` is the value allocated by
`errors.New(text)` in `root.go`, `lib e` is a value that a library call returned.
The constructor records where the value comes from, as Go compares errors by identity and
not by message. -/
inductive Error where
  | new (text : String)
  | lib (e : LibError)
  deriving DecidableEq, Repr

/-- The outcome of a Go function returning `(T, error)`, or panicking at run time. -/
inductive Result (α : Type) where
  | ok (v : α)
  | err (e : Error)
  | panic (msg : String)
  deriving DecidableEq, Repr

/-- A request as `http.NewRequest` returns it and as the client sends it: the method, the URL
as `net/url` renders it after parsing (escaped, without fragment), and the body. -/
structure Request where
  Method : String
  URL : String
  Body : String
  deriving DecidableEq, Repr

/-- What `announceIP` can see of an HTTP response: the status code, and a body it never reads. -/
structure Response where
  StatusCode : Int
  Body : String
  deriving DecidableEq, Repr

/-- The values `Run` reads with `viper.GetString`. -/
structure Config where
  hostname : String
  etcd : String
  ip : String
  deriving DecidableEq, Repr

/-- What one call of `(&http.Client{}).Do(req)` does: the requests the client issues to the
registry while it serves the call, in order (the request handed over and the requests with
which it follows redirects), and what the call returns: the last response, or an error. -/
structure ClientResult where
  issued : List Request
  outcome : Except LibError Response

/-- The environment of one process run.
* `Hostname` is the outcome of `os.Hostname()`;
* `InterfaceAddrs` is the outcome of `net.InterfaceAddrs()`, each address already rendered by
  its `String()` method;
* `urlParse url` is the outcome of the parsing of `url` inside `http.NewRequest`: an error,
  or the URL as the request carries it;
* `Do req` is what `(&http.Client{}).Do(req)` does against the registry. -/
structure World where
  Hostname : Except LibError String
  InterfaceAddrs : Except LibError (List String)
  urlParse : String → Except LibError String
  Do : Request → ClientResult

/-- The requests of a run so far: `handed` are the requests passed to `Client.Do`, `issued`
the requests the client issued to the registry. -/
structure Traffic where
  handed : List Request
  issued : List Request
  deriving DecidableEq, Repr

/-- `http.StatusOK`. -/
def StatusOK : Int := 200

/-! ## Library functions used by `root.go` -/

/-- The segments of a character list around each occurrence of `sep`. -/
def splitChars (sep : Char) : List Char → List (List Char)
  | [] => [[]]
  | c :: cs =>
    if c = sep then [] :: splitChars sep cs
    else
      match splitChars sep cs with
      | [] => [[c]]
      | seg :: segs => (c :: seg) :: segs

/-- `strings.Split(s, sep)` for a separator of one character. -/
def Split (s : String) (sep : Char) : List String :=
  (splitChars sep s.data).map String.mk

/-- The text `fmt.Sprintf` appends for operands that no verb consumed. -/
def extraOperands : List String → List Char
  | [] => []
  | a :: as =>
    "%!(EXTRA ".data ++ ("string=" ++ a).data ++
      (as.map (fun x => (", string=" ++ x).data)).flatten ++ [')']

/-- The formatting loop of `fmt.Sprintf` over a format whose only verb is `%v` and whose
operands are strings: each `%v` is replaced by the next operand, verbatim. -/
def sprintfChars : List Char → List String → List Char
  | [], args => extraOperands args
  | '%' :: 'v' :: rest, [] => "%!v(MISSING)".data ++ sprintfChars rest []
  | '%' :: 'v' :: rest, a :: args => a.data ++ sprintfChars rest args
  | c :: rest, args => c :: sprintfChars rest args

/-- `fmt.Sprintf(format, args...)` for string operands and the verb `%v`. -/
def Sprintf (format : String) (args : List String) : String :=
  String.mk (sprintfChars format.data args)

/-- `http.NewRequest(method, url, body)`: the URL is parsed; when that fails the error is
returned, else the request has the method, the parsed URL and the body. -/
def NewRequest (w : World) (method url body : String) : Except LibError Request :=
  match w.urlParse url with
  | .error e => .error e
  | .ok u => .ok { Method := method, URL := u, Body := body }

/-! ## `getIP` -/

/-- The loop of `getIP` over the enumerated addresses (lines 112-118). -/
def getIPLoop : List String → Result String
  | [] => .err (.new "not found")
  | a :: addrs =>
    if a ≠ "127.0.0.1/8" then
      match (Split a '/')[0]? with
      | some s => .ok s
      | none => .panic "index out of range [0] with length 0"
    else getIPLoop addrs

/-- `getIP` (lines 107-119). -/
def getIP (w : World) : Result String :=
  match w.InterfaceAddrs with
  | .error e => .err (.lib e)
  | .ok addrs => getIPLoop addrs

/-! ## `announceIP` -/

/-- `announceIP` (lines 121-136).  The second component of the result is the traffic,
extended by this call: the request handed to `cli.Do` and the requests the client issued;
the first is the returned error, `none` for `nil`. -/
def announceIP (w : World) (ip name etcdAddr : String) (t : Traffic) :
    Option Error × Traffic :=
  let body := Sprintf "\x7b\"host\":\"%v\"\x7d" [ip]
  match NewRequest w "PUT" (Sprintf "%v/skydns/local/skydns/%v" [etcdAddr, name]) body with
  | .error e => (some (.lib e), t)
  | .ok req =>
    let r := w.Do req
    let t2 : Traffic := { handed := t.handed ++ [req], issued := t.issued ++ r.issued }
    match r.outcome with
    | .error e => (some (.lib e), t2)
    | .ok resp =>
      if resp.StatusCode ≠ StatusOK then (some (.new "fail"), t2)
      else (none, t2)

/-! ## `RootCmd.Run` -/

/-- How a process run ends: `Run` returns, `log.Fatal` is called, or the run panics. -/
inductive Exit where
  | completed
  | fatal (e : Error)
  | panic (msg : String)
  deriving DecidableEq, Repr

/-- What one run of `Run` does: how it ends, the lines written with `log.Printf`, the calls
of `announceIP` as `(ip, hostname, etcd)`, the requests handed to the HTTP client (`sent`)
and the requests the client issued to the registry (`issued`). -/
structure RunResult where
  exit : Exit
  logged : List String
  announced : List (String × String × String)
  sent : List Request
  issued : List Request
  deriving DecidableEq, Repr

/-- Lines 63-66 of `Run`: the call of `announceIP` and the check of its error. -/
def runAnnounce (w : World) (ip hostname etcd : String) (logged : List String) : RunResult :=
  match announceIP w ip hostname etcd { handed := [], issued := [] } with
  | (some e, t) =>
    { exit := .fatal e, logged := logged, announced := [(ip, hostname, etcd)],
      sent := t.handed, issued := t.issued }
  | (none, t) =>
    { exit := .completed, logged := logged, announced := [(ip, hostname, etcd)],
      sent := t.handed, issued := t.issued }

/-- Lines 55-66 of `Run`: the `ip` given or found with `getIP`, then the announcement. -/
def runIP (w : World) (ip hostname etcd : String) (logged : List String) : RunResult :=
  if ip = "" then
    match getIP w with
    | .err e =>
      { exit := .fatal e, logged := logged, announced := [], sent := [], issued := [] }
    | .panic msg =>
      { exit := .panic msg, logged := logged, announced := [], sent := [], issued := [] }
    | .ok i => runAnnounce w i hostname etcd (logged ++ [Sprintf "no ip given, using %v" [i]])
  else runAnnounce w ip hostname etcd logged

/-- The `Run` function of `RootCmd` (lines 43-67). -/
def Run (cfg : Config) (w : World) : RunResult :=
  if cfg.hostname = "" then
    match w.Hostname with
    | .error e =>
      { exit := .fatal (.lib e), logged := [], announced := [], sent := [], issued := [] }
    | .ok h => runIP w cfg.ip h cfg.etcd [Sprintf "no hostname given, using %v" [h]]
  else runIP w cfg.ip cfg.hostname cfg.etcd []

/-! ## Definitions used to state the properties -/

/-- The part of `a` before its first `/`, the whole of `a` when it has none. -/
def beforeSlash (a : String) : String :=
  String.mk (a.data.takeWhile (fun c => c != '/'))

/-- A world whose interface enumeration succeeds with `addrs`. -/
def withAddrs (w : World) (addrs : List String) : World :=
  { w with InterfaceAddrs := .ok addrs }

/-- A world in which both operating-system lookups have the given outcomes. -/
def withOS (w : World) (h : Except LibError String) (a : Except LibError (List String)) :
    World :=
  { w with Hostname := h, InterfaceAddrs := a }

/-- The URL text `announceIP` passes to `http.NewRequest`. -/
def rawURL (etcdAddr name : String) : String :=
  etcdAddr ++ "/skydns/local/skydns/" ++ name

/-- The `PUT` request with the URL `url` and the body announcing `ip`. -/
def putRequest (url ip : String) : Request :=
  { Method := "PUT", URL := url, Body := "\x7b\"host\":\"" ++ ip ++ "\"\x7d" }

/-- The request `announceIP` is specified to build: its URL is the text passed to
`http.NewRequest`, unchanged. -/
def specRequest (ip hostname registryAddress : String) : Request :=
  putRequest (rawURL registryAddress hostname) ip

/-- The empty traffic, at the start of a run. -/
def noTraffic : Traffic := { handed := [], issued := [] }

/-- A registry stub: every URL is accepted and left as it is, and the one request the client
issues is answered with `code`. -/
def stubWorld (code : Int) : World :=
  { Hostname := .ok "pod-1"
    InterfaceAddrs := .ok ["127.0.0.1/8", "10.0.0.5/24"]
    urlParse := fun url => .ok url
    Do := fun req => { issued := [req], outcome := .ok { StatusCode := code, Body := "" } } }

/-- A world whose URL check is the scheme check of Go's `net/url` (`getscheme`): a URL whose
first character is `:` is rejected, the cause being `missing protocol scheme`; every other
URL is accepted. -/
def schemeWorld : World :=
  { Hostname := .ok "pod-1"
    InterfaceAddrs := .ok ["127.0.0.1/8", "10.0.0.5/24"]
    urlParse := fun url =>
      if url.data.head? = some ':' then .error { text := "missing protocol scheme" }
      else .ok url
    Do := fun req => { issued := [req], outcome := .ok { StatusCode := 200, Body := "" } } }

/-- A world whose URL parsing is the path escaping of Go's `net/url` for a blank: each blank
of the URL is carried as `%20`; every other character is left as it is. -/
def escapingWorld : World :=
  { Hostname := .ok "a b"
    InterfaceAddrs := .ok ["127.0.0.1/8", "10.0.0.5/24"]
    urlParse := fun url =>
      .ok (String.mk (url.data.flatMap (fun c => if c = ' ' then "%20".data else [c])))
    Do := fun req => { issued := [req], outcome := .ok { StatusCode := 200, Body := "" } } }

/-- A world whose registry answers the `PUT` with status 307 and a `Location` on another
host, and the request to that location with status 200: the zero-value client follows the
redirect, sends the `PUT` with its body again, and returns the second response. -/
def redirectWorld : World :=
  { Hostname := .ok "pod-1"
    InterfaceAddrs := .ok ["127.0.0.1/8", "10.0.0.5/24"]
    urlParse := fun url => .ok url
    Do := fun req =>
      { issued := [req, { req with URL := "http://etcd-2:2379/skydns/local/skydns/pod-1" }]
        outcome := .ok { StatusCode := 200, Body := "" } } }

/-- A world whose interface enumeration fails with `e`. -/
def withAddrsError (w : World) (e : LibError) : World :=
  { w with InterfaceAddrs := .error e }

/-- A world in which every URL is accepted and left as it is, and the one request the client
issues is answered with `resp`. -/
def respondWorld (w : World) (resp : Response) : World :=
  { w with urlParse := fun url => .ok url
           Do := fun req => { issued := [req], outcome := .ok resp } }

/-- A world whose client returns, for every request, the outcome `o` gives instead of its
own, and issues the same requests as before. -/
def withOutcome (w : World) (o : Request → Except LibError Response) : World :=
  { w with Do := fun req => { issued := (w.Do req).issued, outcome := o req } }

/-- Hostname resolution as the specification words it: the override when it is not empty,
else the hostname of the operating system. -/
def resolveHostname (w : World) (override : String) : Result String :=
  if override ≠ "" then .ok override
  else
    match w.Hostname with
    | .error e => .err (.lib e)
    | .ok h => .ok h

/-- Address resolution as the specification words it: the override when it is not empty,
else the address found by `getIP`. -/
def resolveIP (w : World) (override : String) : Result String :=
  if override ≠ "" then .ok override else getIP w

/-! ## Lemmas on the library functions -/

theorem splitChars_ne_nil (sep : Char) (s : List Char) : splitChars sep s ≠ [] := by
  cases s with
  | nil => simp [splitChars]
  | cons c cs =>
    unfold splitChars
    split
    · simp
    · split <;> simp

theorem splitChars_head (sep : Char) (s : List Char) :
    (splitChars sep s).head? = some (s.takeWhile (fun c => c != sep)) := by
  induction s with
  | nil => simp [splitChars]
  | cons c cs ih =>
    unfold splitChars
    by_cases h : c = sep
    · simp [h]
    · cases hs : splitChars sep cs with
      | nil => exact absurd hs (splitChars_ne_nil sep cs)
      | cons seg segs =>
        rw [hs] at ih
        simp only [List.head?_cons, Option.some.injEq] at ih
        simp [h, ih]

theorem splitChars_length (sep : Char) (s : List Char) :
    (splitChars sep s).length = s.count sep + 1 := by
  induction s with
  | nil => simp [splitChars]
  | cons c cs ih =>
    unfold splitChars
    by_cases h : c = sep
    · simp [h, ih]
    · cases hs : splitChars sep cs with
      | nil => exact absurd hs (splitChars_ne_nil sep cs)
      | cons seg segs =>
        rw [hs] at ih
        have hc : List.count sep (c :: cs) = List.count sep cs := by
          rw [List.count_cons]; simp [h]
        simp only [h, if_false, List.length_cons, hc]
        simpa using ih

theorem splitChars_intercalate (sep : Char) (s : List Char) :
    [sep].intercalate (splitChars sep s) = s := by
  induction s with
  | nil => simp [splitChars, List.intercalate]
  | cons c cs ih =>
    unfold splitChars
    by_cases h : c = sep
    · cases hs : splitChars sep cs with
      | nil => exact absurd hs (splitChars_ne_nil sep cs)
      | cons seg segs =>
        rw [hs] at ih
        simp only [h, if_true]
        simp only [List.intercalate, List.intersperse, List.flatten_cons, List.nil_append,
          List.singleton_append] at ih ⊢
        rw [ih]
    · cases hs : splitChars sep cs with
      | nil => exact absurd hs (splitChars_ne_nil sep cs)
      | cons seg segs =>
        rw [hs] at ih
        simp only [h, if_false]
        cases segs with
        | nil =>
          simp only [List.intercalate, List.intersperse, List.flatten_cons, List.flatten_nil,
            List.append_nil] at ih ⊢
          rw [ih]
        | cons s2 rest =>
          simp only [List.intercalate, List.intersperse, List.flatten_cons,
            List.cons_append] at ih ⊢
          rw [ih]

theorem Split_zero (a : String) : (Split a '/')[0]? = some (beforeSlash a) := by
  have h := splitChars_head '/' a.data
  cases hs : splitChars '/' a.data with
  | nil => exact absurd hs (splitChars_ne_nil _ _)
  | cons seg segs =>
    rw [hs] at h
    simp only [List.head?_cons, Option.some.injEq] at h
    simp [Split, beforeSlash, hs, h]

theorem beforeSlash_no_slash (a : String) : '/' ∉ (beforeSlash a).data := by
  intro h
  have := List.mem_takeWhile_imp h
  simp at this

theorem beforeSlash_isPrefix (a : String) : (beforeSlash a).data <+: a.data := by
  simpa [beforeSlash] using List.takeWhile_prefix (fun c => c != '/')

theorem beforeSlash_of_no_slash (a : String) (h : '/' ∉ a.data) : beforeSlash a = a := by
  have : a.data.takeWhile (fun c => c != '/') = a.data := by
    rw [List.takeWhile_eq_self_iff]
    intro c hc
    simp only [bne_iff_ne, ne_eq]
    intro hEq
    exact h (hEq ▸ hc)
  simp [beforeSlash, this]

theorem sprintf_url (etcdAddr name : String) :
    Sprintf "%v/skydns/local/skydns/%v" [etcdAddr, name]
      = etcdAddr ++ "/skydns/local/skydns/" ++ name := by
  apply String.ext
  simp [Sprintf, sprintfChars, extraOperands, String.data_append]

theorem sprintf_body (ip : String) :
    Sprintf "\x7b\"host\":\"%v\"\x7d" [ip] = "\x7b\"host\":\"" ++ ip ++ "\"\x7d" := by
  apply String.ext
  simp [Sprintf, sprintfChars, extraOperands, String.data_append]

/-! ## Lemmas on `getIP` -/

theorem getIPLoop_cons (a : String) (addrs : List String) :
    getIPLoop (a :: addrs)
      = if a = "127.0.0.1/8" then getIPLoop addrs else .ok (beforeSlash a) := by
  by_cases h : a = "127.0.0.1/8"
  · simp [getIPLoop, h]
  · simp [getIPLoop, h, Split_zero]

theorem getIPLoop_all_loopback (addrs : List String) (h : ∀ a ∈ addrs, a = "127.0.0.1/8") :
    getIPLoop addrs = .err (.new "not found") := by
  induction addrs with
  | nil => rfl
  | cons a addrs ih =>
    rw [getIPLoop_cons, if_pos (h a (List.mem_cons_self _ _))]
    exact ih (fun x hx => h x (List.mem_cons_of_mem _ hx))

theorem getIPLoop_first (pre : List String) (a : String) (post : List String)
    (hpre : ∀ x ∈ pre, x = "127.0.0.1/8") (ha : a ≠ "127.0.0.1/8") :
    getIPLoop (pre ++ a :: post) = .ok (beforeSlash a) := by
  induction pre with
  | nil => simp [getIPLoop_cons, ha]
  | cons p pre ih =>
    rw [List.cons_append, getIPLoop_cons, if_pos (hpre p (List.mem_cons_self _ _))]
    exact ih (fun x hx => hpre x (List.mem_cons_of_mem _ hx))

theorem exists_first_non_loopback (addrs : List String) (h : ∃ a ∈ addrs, a ≠ "127.0.0.1/8") :
    ∃ pre a post, addrs = pre ++ a :: post ∧ (∀ x ∈ pre, x = "127.0.0.1/8")
      ∧ a ≠ "127.0.0.1/8" := by
  induction addrs with
  | nil => obtain ⟨a, ha, _⟩ := h; simp at ha
  | cons b addrs ih =>
    by_cases hb : b = "127.0.0.1/8"
    · obtain ⟨a, ha, hne⟩ := h
      have hmem : a ∈ addrs := by
        rcases List.mem_cons.mp ha with rfl | h2
        · exact absurd hb hne
        · exact h2
      obtain ⟨pre, x, post, he, hp, hx⟩ := ih ⟨a, hmem, hne⟩
      refine ⟨b :: pre, x, post, by simp [he], ?_, hx⟩
      intro y hy
      rcases List.mem_cons.mp hy with rfl | h2
      · exact hb
      · exact hp y h2
    · exact ⟨[], b, addrs, rfl, by simp, hb⟩

theorem getIPLoop_cases (addrs : List String) :
    ((∀ a ∈ addrs, a = "127.0.0.1/8") ∧ getIPLoop addrs = .err (.new "not found")) ∨
    (∃ pre a post, addrs = pre ++ a :: post ∧ (∀ x ∈ pre, x = "127.0.0.1/8")
      ∧ a ≠ "127.0.0.1/8" ∧ getIPLoop addrs = .ok (beforeSlash a)) := by
  by_cases h : ∀ a ∈ addrs, a = "127.0.0.1/8"
  · exact Or.inl ⟨h, getIPLoop_all_loopback addrs h⟩
  · right
    have h2 : ∃ a ∈ addrs, a ≠ "127.0.0.1/8" := by
      by_contra hc
      apply h
      intro a ha
      by_contra hne
      exact hc ⟨a, ha, hne⟩
    obtain ⟨pre, a, post, he, hp, hx⟩ := exists_first_non_loopback addrs h2
    exact ⟨pre, a, post, he, hp, hx, he ▸ getIPLoop_first pre a post hp hx⟩

/-! ## Lemmas on `announceIP` and `Run` -/

theorem announceIP_unfold (w : World) (ip name etcdAddr : String) (t : Traffic) :
    announceIP w ip name etcdAddr t =
      match w.urlParse (rawURL etcdAddr name) with
      | .error e => (some (.lib e), t)
      | .ok u =>
        match (w.Do (putRequest u ip)).outcome with
        | .error e =>
          (some (.lib e), { handed := t.handed ++ [putRequest u ip]
                            issued := t.issued ++ (w.Do (putRequest u ip)).issued })
        | .ok resp =>
          if resp.StatusCode = 200 then
            (none, { handed := t.handed ++ [putRequest u ip]
                     issued := t.issued ++ (w.Do (putRequest u ip)).issued })
          else
            (some (.new "fail"), { handed := t.handed ++ [putRequest u ip]
                                   issued := t.issued ++ (w.Do (putRequest u ip)).issued }) := by
  simp only [announceIP, NewRequest, sprintf_url, sprintf_body, putRequest, rawURL, StatusOK]
  cases w.urlParse (etcdAddr ++ "/skydns/local/skydns/" ++ name) with
  | error e => rfl
  | ok u =>
    simp only
    cases (w.Do { Method := "PUT", URL := u,
                  Body := "\x7b\"host\":\"" ++ ip ++ "\"\x7d" }).outcome with
    | error e => rfl
    | ok resp => by_cases h : resp.StatusCode = 200 <;> simp [h]

/-- The traffic `announceIP` leaves does not depend on what `Do` returns. -/
theorem announceIP_traffic (w : World) (ip name etcdAddr : String) (t : Traffic) :
    (announceIP w ip name etcdAddr t).2 =
      match w.urlParse (rawURL etcdAddr name) with
      | .error _ => t
      | .ok u => { handed := t.handed ++ [putRequest u ip]
                   issued := t.issued ++ (w.Do (putRequest u ip)).issued } := by
  rw [announceIP_unfold]
  cases w.urlParse (rawURL etcdAddr name) with
  | error e => rfl
  | ok u =>
    simp only
    cases (w.Do (putRequest u ip)).outcome with
    | error e => rfl
    | ok resp => by_cases h : resp.StatusCode = 200 <;> simp [h]

theorem getIP_no_panic (w : World) (msg : String) : getIP w ≠ .panic msg := by
  unfold getIP
  cases w.InterfaceAddrs with
  | error e => simp
  | ok addrs =>
    simp only
    rcases getIPLoop_cases addrs with ⟨_, h⟩ | ⟨_, _, _, _, _, _, h⟩ <;> simp [h]

theorem runAnnounce_exit (w : World) (ip hostname etcd : String) (logged : List String) :
    (runAnnounce w ip hostname etcd logged).exit =
      (match (announceIP w ip hostname etcd noTraffic).1 with
        | some e => Exit.fatal e
        | none => Exit.completed)
    ∧ (runAnnounce w ip hostname etcd logged).announced = [(ip, hostname, etcd)]
    ∧ (runAnnounce w ip hostname etcd logged).sent
        = (announceIP w ip hostname etcd noTraffic).2.handed
    ∧ (runAnnounce w ip hostname etcd logged).issued
        = (announceIP w ip hostname etcd noTraffic).2.issued := by
  unfold runAnnounce noTraffic
  rcases h : announceIP w ip hostname etcd { handed := [], issued := [] }
    with ⟨_ | e, t⟩ <;> simp

/-! ## The properties -/

/-- C1: with an empty ip override, when the enumerated list has an entry other than
`127.0.0.1/8`, `getIP` succeeds with the part before the first `/` of the first such entry in
list order, which is the whole entry when it has no `/`. -/
theorem getIP_first_entry (w : World) (addrs : List String)
    (h : ∃ a ∈ addrs, a ≠ "127.0.0.1/8") :
    ∃ pre a post, addrs = pre ++ a :: post ∧ (∀ x ∈ pre, x = "127.0.0.1/8")
      ∧ a ≠ "127.0.0.1/8"
      ∧ getIP (withAddrs w addrs) = .ok (beforeSlash a)
      ∧ ('/' ∉ a.data → getIP (withAddrs w addrs) = .ok a) := by
  obtain ⟨pre, a, post, he, hp, ha⟩ := exists_first_non_loopback addrs h
  have hg : getIP (withAddrs w addrs) = .ok (beforeSlash a) := by
    simp only [getIP, withAddrs]
    rw [he]
    exact getIPLoop_first pre a post hp ha
  refine ⟨pre, a, post, he, hp, ha, hg, ?_⟩
  intro hs
  rw [hg, beforeSlash_of_no_slash a hs]

/-- C1, at the list of the specification: on `["127.0.0.1/8", "10.0.0.5/24"]` the first entry
other than `127.0.0.1/8` exists and `getIP` returns its address part. -/
theorem getIP_first_entry_witness :
    (∃ a ∈ ["127.0.0.1/8", "10.0.0.5/24"], a ≠ "127.0.0.1/8") ∧
    ∃ pre a post, ["127.0.0.1/8", "10.0.0.5/24"] = pre ++ a :: post
      ∧ (∀ x ∈ pre, x = "127.0.0.1/8") ∧ a ≠ "127.0.0.1/8"
      ∧ getIP (withAddrs (stubWorld 200) ["127.0.0.1/8", "10.0.0.5/24"]) = .ok (beforeSlash a)
      ∧ ('/' ∉ a.data →
          getIP (withAddrs (stubWorld 200) ["127.0.0.1/8", "10.0.0.5/24"]) = .ok a) :=
  ⟨⟨"10.0.0.5/24", by simp, by decide⟩,
   getIP_first_entry (stubWorld 200) ["127.0.0.1/8", "10.0.0.5/24"]
     ⟨"10.0.0.5/24", by simp, by decide⟩⟩

/-- C2: after a successful enumeration `getIP` fails, and then with the error `not found`,
exactly when every entry equals `127.0.0.1/8` (the empty list included); a failing enumeration
makes it return the library's error, which is another error value than `not found`. -/
theorem getIP_not_found_iff (w : World) (addrs : List String) :
    (getIP (withAddrs w addrs) = .err (.new "not found") ↔ ∀ a ∈ addrs, a = "127.0.0.1/8")
    ∧ ((∃ e, getIP (withAddrs w addrs) = .err e) ↔ ∀ a ∈ addrs, a = "127.0.0.1/8")
    ∧ getIP (withAddrs w []) = .err (.new "not found")
    ∧ getIP (withAddrs w ["127.0.0.1/8"]) = .err (.new "not found")
    ∧ ∀ e : LibError, getIP (withAddrsError w e) = .err (.lib e)
        ∧ getIP (withAddrsError w e) ≠ .err (.new "not found") := by
  have key : getIP (withAddrs w addrs) = getIPLoop addrs := rfl
  refine ⟨?_, ?_, rfl, ?_, ?_⟩
  · rw [key]
    constructor
    · intro h
      rcases getIPLoop_cases addrs with ⟨hall, _⟩ | ⟨_, _, _, _, _, _, hok⟩
      · exact hall
      · rw [hok] at h; cases h
    · exact getIPLoop_all_loopback addrs
  · rw [key]
    constructor
    · rintro ⟨e, h⟩
      rcases getIPLoop_cases addrs with ⟨hall, _⟩ | ⟨_, _, _, _, _, _, hok⟩
      · exact hall
      · rw [hok] at h; cases h
    · intro h
      exact ⟨_, getIPLoop_all_loopback addrs h⟩
  · show getIPLoop ["127.0.0.1/8"] = .err (.new "not found")
    decide
  · intro e
    have h : getIP (withAddrsError w e) = .err (.lib e) := rfl
    refine ⟨h, ?_⟩
    rw [h]
    intro hc
    cases hc

/-- C3, evaluated: with an empty ip override and the single interface address `127.0.0.1/32`,
`getIP` succeeds and `Run` calls `announceIP` with the ip `127.0.0.1`. -/
theorem run_announces_loopback_literal :
    getIP (withAddrs (stubWorld 200) ["127.0.0.1/32"]) = .ok "127.0.0.1"
    ∧ (Run { hostname := "pod-1", etcd := "http://etcd:2379", ip := "" }
        (withAddrs (stubWorld 200) ["127.0.0.1/32"])).announced
        = [("127.0.0.1", "pod-1", "http://etcd:2379")] := by
  decide

/-- C4: with a non-empty hostname override and a non-empty ip override, `announceIP` is called
once, with the two overrides unchanged, and the whole run is the same whatever the outcomes of
the hostname lookup and of the interface enumeration are. -/
theorem run_overrides_verbatim (cfg : Config) (w : World)
    (hh : cfg.hostname ≠ "") (hi : cfg.ip ≠ "")
    (h : Except LibError String) (a : Except LibError (List String)) :
    (Run cfg (withOS w h a)).announced = [(cfg.ip, cfg.hostname, cfg.etcd)]
    ∧ Run cfg (withOS w h a) = Run cfg w := by
  have e1 : ∀ v : World, Run cfg v = runAnnounce v cfg.ip cfg.hostname cfg.etcd [] := by
    intro v
    simp [Run, runIP, hh, hi]
  have e2 : runAnnounce (withOS w h a) cfg.ip cfg.hostname cfg.etcd []
      = runAnnounce w cfg.ip cfg.hostname cfg.etcd [] := by
    simp [runAnnounce, announceIP_unfold, withOS]
  rw [e1, e1, e2]
  exact ⟨(runAnnounce_exit w cfg.ip cfg.hostname cfg.etcd []).2.1, rfl⟩

/-- C4, at concrete overrides: the loopback text ` 127.0.0.1 ` with its blanks is handed to
`announceIP` as given, with both lookups of the operating system failing. -/
theorem run_overrides_verbatim_witness :
    ("pod/1" ≠ "" ∧ " 127.0.0.1 " ≠ "") ∧
    ((Run { hostname := "pod/1", etcd := "http://etcd:2379", ip := " 127.0.0.1 " }
        (withOS (stubWorld 200) (.error { text := "no hostname" })
          (.error { text := "no interfaces" }))).announced
        = [(" 127.0.0.1 ", "pod/1", "http://etcd:2379")]
    ∧ Run { hostname := "pod/1", etcd := "http://etcd:2379", ip := " 127.0.0.1 " }
        (withOS (stubWorld 200) (.error { text := "no hostname" })
          (.error { text := "no interfaces" }))
      = Run { hostname := "pod/1", etcd := "http://etcd:2379", ip := " 127.0.0.1 " }
          (stubWorld 200)) :=
  ⟨⟨by decide, by decide⟩,
   run_overrides_verbatim
     { hostname := "pod/1", etcd := "http://etcd:2379", ip := " 127.0.0.1 " } (stubWorld 200)
     (by decide) (by decide) (.error { text := "no hostname" })
     (.error { text := "no interfaces" })⟩

/-- C5, refuted as stated: with the hostname `a b`, and a URL parsing that carries a blank
as `%20` as Go's `net/url` does, the request `announceIP` hands to the HTTP client has the URL
`http://etcd:2379/skydns/local/skydns/a%20b`, not the concatenation with its blank. -/
theorem announceIP_url_is_escaped :
    (announceIP escapingWorld "10.0.0.5" "a b" "http://etcd:2379" noTraffic).2.handed
      = [{ Method := "PUT"
           URL := "http://etcd:2379/skydns/local/skydns/a%20b"
           Body := "\x7b\"host\":\"10.0.0.5\"\x7d" }]
    ∧ ¬ ((announceIP escapingWorld "10.0.0.5" "a b" "http://etcd:2379" noTraffic).2.handed
          = [{ Method := "PUT"
               URL := "http://etcd:2379" ++ "/skydns/local/skydns/" ++ "a b"
               Body := "\x7b\"host\":\"" ++ "10.0.0.5" ++ "\"\x7d" }]) := by
  decide

/-- C5, amended: `announceIP` passes to `http.NewRequest` the method `PUT`, the URL text
`registryAddress ++ "/skydns/local/skydns/" ++ hostname` and the body
`{"host":"` ++ ip ++ `"}`, both plain concatenations; the request handed to the HTTP client
has the method `PUT`, that body unchanged and the URL as `http.NewRequest` parsed it from
that text, which is the concatenation itself whenever parsing leaves the text unchanged. -/
theorem announceIP_builds_request (w : World) (ip hostname registryAddress : String)
    (t : Traffic) :
    Sprintf "%v/skydns/local/skydns/%v" [registryAddress, hostname]
      = registryAddress ++ "/skydns/local/skydns/" ++ hostname
    ∧ Sprintf "\x7b\"host\":\"%v\"\x7d" [ip] = "\x7b\"host\":\"" ++ ip ++ "\"\x7d"
    ∧ (announceIP w ip hostname registryAddress t).2.handed =
        (match w.urlParse (registryAddress ++ "/skydns/local/skydns/" ++ hostname) with
          | .ok u => t.handed ++ [{ Method := "PUT", URL := u
                                    Body := "\x7b\"host\":\"" ++ ip ++ "\"\x7d" }]
          | .error _ => t.handed)
    ∧ (w.urlParse (registryAddress ++ "/skydns/local/skydns/" ++ hostname)
          = .ok (registryAddress ++ "/skydns/local/skydns/" ++ hostname) →
        (announceIP w ip hostname registryAddress t).2.handed =
          t.handed ++ [{ Method := "PUT"
                         URL := registryAddress ++ "/skydns/local/skydns/" ++ hostname
                         Body := "\x7b\"host\":\"" ++ ip ++ "\"\x7d" }])
    ∧ announceIP (stubWorld 200) "10.0.0.5" "pod-1" "http://etcd:2379" noTraffic =
        (none,
          { handed := [{ Method := "PUT"
                         URL := "http://etcd:2379/skydns/local/skydns/pod-1"
                         Body := "\x7b\"host\":\"10.0.0.5\"\x7d" }]
            issued := [{ Method := "PUT"
                         URL := "http://etcd:2379/skydns/local/skydns/pod-1"
                         Body := "\x7b\"host\":\"10.0.0.5\"\x7d" }] }) := by
  have hh : (announceIP w ip hostname registryAddress t).2.handed =
      (match w.urlParse (registryAddress ++ "/skydns/local/skydns/" ++ hostname) with
        | .ok u => t.handed ++ [{ Method := "PUT", URL := u
                                  Body := "\x7b\"host\":\"" ++ ip ++ "\"\x7d" }]
        | .error _ => t.handed) := by
    rw [announceIP_traffic]
    simp only [rawURL, putRequest]
    cases w.urlParse (registryAddress ++ "/skydns/local/skydns/" ++ hostname) <;> rfl
  refine ⟨sprintf_url registryAddress hostname, sprintf_body ip, hh, ?_, by decide⟩
  intro hp
  rw [hh, hp]

/-- C6: `announceIP` returns `nil` exactly when the request was accepted and the client
delivered a response with status code 200; a delivered response with any other status code,
201 and 204 included, gives the error `fail`, the same value whatever the response holds. -/
theorem announceIP_nil_iff (w : World) (ip name etcdAddr : String) (t : Traffic) :
    ((announceIP w ip name etcdAddr t).1 = none ↔
      ∃ u, w.urlParse (rawURL etcdAddr name) = .ok u ∧
      ∃ resp, (w.Do (putRequest u ip)).outcome = .ok resp ∧ resp.StatusCode = 200)
    ∧ (∀ u resp, w.urlParse (rawURL etcdAddr name) = .ok u →
        (w.Do (putRequest u ip)).outcome = .ok resp → resp.StatusCode ≠ 200 →
        (announceIP w ip name etcdAddr t).1 = some (.new "fail"))
    ∧ (∀ resp : Response, (announceIP (respondWorld w resp) ip name etcdAddr t).1 =
        if resp.StatusCode = 200 then none else some (.new "fail"))
    ∧ (∀ body : String,
        (announceIP (respondWorld w { StatusCode := 201, Body := body }) ip name etcdAddr t).1
          = some (.new "fail")
        ∧ (announceIP (respondWorld w { StatusCode := 204, Body := body }) ip name etcdAddr t).1
          = some (.new "fail")) := by
  have hresp : ∀ resp : Response, (announceIP (respondWorld w resp) ip name etcdAddr t).1 =
      if resp.StatusCode = 200 then none else some (.new "fail") := by
    intro resp
    rw [announceIP_unfold]
    simp only [respondWorld]
    by_cases h : resp.StatusCode = 200 <;> simp [h]
  refine ⟨?_, ?_, hresp, ?_⟩
  · rw [announceIP_unfold]
    cases hu : w.urlParse (rawURL etcdAddr name) with
    | error e => simp
    | ok u =>
      simp only [Except.ok.injEq, exists_eq_left']
      cases hd : (w.Do (putRequest u ip)).outcome with
      | error e => simp
      | ok resp => by_cases h : resp.StatusCode = 200 <;> simp [h]
  · intro u resp hu hd hne
    rw [announceIP_unfold, hu]
    simp only [hd, hne, if_false]
  · intro body
    exact ⟨by rw [hresp]; simp, by rw [hresp]; simp⟩

/-- C7, refuted as stated: when `http.NewRequest` rejects the URL (here `:` as registry
address, which has no protocol scheme) `announceIP` returns its error and hands no request to
the HTTP client; and when the registry answers the `PUT` with a 307 redirect, the zero-value
client follows it inside the one call of `Do` and two `PUT` requests are issued. -/
theorem announceIP_no_attempt_on_rejected_url :
    announceIP schemeWorld "10.0.0.5" "pod-1" ":" noTraffic
      = (some (.lib { text := "missing protocol scheme" }), noTraffic)
    ∧ ¬ ((announceIP schemeWorld "10.0.0.5" "pod-1" ":" noTraffic).2.handed.length
          = noTraffic.handed.length + 1)
    ∧ (announceIP redirectWorld "10.0.0.5" "pod-1" "http://etcd:2379" noTraffic).2.issued
        = [{ Method := "PUT", URL := "http://etcd:2379/skydns/local/skydns/pod-1"
             Body := "\x7b\"host\":\"10.0.0.5\"\x7d" },
           { Method := "PUT", URL := "http://etcd-2:2379/skydns/local/skydns/pod-1"
             Body := "\x7b\"host\":\"10.0.0.5\"\x7d" }]
    ∧ ¬ ((announceIP redirectWorld "10.0.0.5" "pod-1" "http://etcd:2379" noTraffic).2.issued.length
          = noTraffic.issued.length + 1) := by
  decide

/-- C7, amended: each call of `announceIP` calls `Do` of the HTTP client at most once, with a
`PUT`: exactly once when `http.NewRequest` accepts the URL, not at all when it rejects it.
The requests issued to the registry are those of that one call of `Do`: exactly one `PUT`
whenever the client issues the request handed to it and no other (it follows no redirect).
The traffic does not depend on what `Do` returns (status 200, another status, a transport
error), so `announceIP` makes no second attempt after a failure. -/
theorem announceIP_single_attempt (w : World) (ip name etcdAddr : String) (t : Traffic) :
    (announceIP w ip name etcdAddr t).2.handed =
        t.handed ++ (match w.urlParse (rawURL etcdAddr name) with
                      | .ok u => [putRequest u ip]
                      | .error _ => [])
    ∧ (announceIP w ip name etcdAddr t).2.handed.length ≤ t.handed.length + 1
    ∧ (∀ req ∈ (announceIP w ip name etcdAddr t).2.handed, req ∈ t.handed ∨ req.Method = "PUT")
    ∧ (announceIP w ip name etcdAddr t).2.issued =
        t.issued ++ (match w.urlParse (rawURL etcdAddr name) with
                      | .ok u => (w.Do (putRequest u ip)).issued
                      | .error _ => [])
    ∧ (∀ u, w.urlParse (rawURL etcdAddr name) = .ok u →
        (w.Do (putRequest u ip)).issued = [putRequest u ip] →
        (announceIP w ip name etcdAddr t).2 =
          { handed := t.handed ++ [putRequest u ip], issued := t.issued ++ [putRequest u ip] })
    ∧ (∀ o : Request → Except LibError Response,
        (announceIP (withOutcome w o) ip name etcdAddr t).2 = (announceIP w ip name etcdAddr t).2)
    ∧ (∀ (code : Int) (body : String),
        (announceIP (respondWorld w { StatusCode := code, Body := body }) ip name etcdAddr t).2
          = { handed := t.handed ++ [specRequest ip name etcdAddr]
              issued := t.issued ++ [specRequest ip name etcdAddr] }) := by
  refine ⟨?_, ?_, ?_, ?_, ?_, ?_, ?_⟩
  · rw [announceIP_traffic]
    cases w.urlParse (rawURL etcdAddr name) <;> simp
  · rw [announceIP_traffic]
    cases w.urlParse (rawURL etcdAddr name) <;> simp
  · intro req
    rw [announceIP_traffic]
    cases w.urlParse (rawURL etcdAddr name) with
    | error e => intro h; exact Or.inl h
    | ok u =>
      intro h
      rcases List.mem_append.mp h with h1 | h1
      · exact Or.inl h1
      · right
        rw [List.mem_singleton.mp h1]
        rfl
  · rw [announceIP_traffic]
    cases w.urlParse (rawURL etcdAddr name) <;> simp
  · intro u hu hi
    rw [announceIP_traffic, hu]
    simp only [hi]
  · intro o
    rw [announceIP_traffic, announceIP_traffic]
    rfl
  · intro code body
    rw [announceIP_traffic]
    rfl

/-- C8, evaluated: on the interface list `["127.0.0.1/8", "::1/128", "10.0.0.5/24"]` `getIP`
returns the IPv6 loopback address `::1`, and on `["127.0.0.2/8", "10.0.0.5/24"]` the loopback
address `127.0.0.2`, not the address `10.0.0.5` of the first non-local entry. -/
theorem getIP_returns_loopback :
    getIP (withAddrs (stubWorld 200) ["127.0.0.1/8", "::1/128", "10.0.0.5/24"]) = .ok "::1"
    ∧ getIP (withAddrs (stubWorld 200) ["127.0.0.2/8", "10.0.0.5/24"]) = .ok "127.0.0.2" := by
  decide

/-- C9: `Run` completes exactly when hostname resolution, address resolution and `announceIP`
all succeed; otherwise it ends in `log.Fatal` with the error of the first of the three steps
that fails, and when one of the two resolutions fails `announceIP` is not called and no
request is sent. -/
theorem run_aborts_at_first_failure (cfg : Config) (w : World) :
    ((Run cfg w).exit = .completed ↔
      ∃ h i, resolveHostname w cfg.hostname = .ok h ∧ resolveIP w cfg.ip = .ok i
        ∧ (announceIP w i h cfg.etcd noTraffic).1 = none)
    ∧ (∀ e, resolveHostname w cfg.hostname = .err e →
        (Run cfg w).exit = .fatal e ∧ (Run cfg w).announced = [] ∧ (Run cfg w).sent = []
          ∧ (Run cfg w).issued = [])
    ∧ (∀ h e, resolveHostname w cfg.hostname = .ok h → resolveIP w cfg.ip = .err e →
        (Run cfg w).exit = .fatal e ∧ (Run cfg w).announced = [] ∧ (Run cfg w).sent = []
          ∧ (Run cfg w).issued = [])
    ∧ (∀ h i e, resolveHostname w cfg.hostname = .ok h → resolveIP w cfg.ip = .ok i →
        (announceIP w i h cfg.etcd noTraffic).1 = some e →
        (Run cfg w).exit = .fatal e ∧ (Run cfg w).announced = [(i, h, cfg.etcd)]
          ∧ (Run cfg w).sent = (announceIP w i h cfg.etcd noTraffic).2.handed
          ∧ (Run cfg w).issued = (announceIP w i h cfg.etcd noTraffic).2.issued)
    ∧ (∀ msg, (Run cfg w).exit ≠ .panic msg) := by
  -- the run, by cases on the two resolutions
  have hrun : ∀ h, resolveHostname w cfg.hostname = .ok h →
      ∃ l, Run cfg w = runIP w cfg.ip h cfg.etcd l := by
    intro h hh
    unfold resolveHostname at hh
    unfold Run
    by_cases hc : cfg.hostname = ""
    · simp only [hc, ne_eq, not_true_eq_false, if_false, if_true] at hh ⊢
      cases hw : w.Hostname with
      | error e => rw [hw] at hh; cases hh
      | ok h2 =>
        rw [hw] at hh
        cases hh
        exact ⟨_, rfl⟩
    · simp only [hc, ne_eq, not_false_eq_true, if_true, if_false] at hh ⊢
      cases hh
      exact ⟨_, rfl⟩
  have hhost : resolveHostname w cfg.hostname = .ok cfg.hostname ∧ cfg.hostname ≠ ""
      ∨ (cfg.hostname = "" ∧ ∃ h, w.Hostname = .ok h ∧ resolveHostname w cfg.hostname = .ok h)
      ∨ (cfg.hostname = "" ∧ ∃ e, w.Hostname = .error e
          ∧ resolveHostname w cfg.hostname = .err (.lib e)) := by
    unfold resolveHostname
    by_cases hc : cfg.hostname = ""
    · right
      cases hw : w.Hostname with
      | error e => right; exact ⟨hc, e, rfl, by simp [hc]⟩
      | ok h => left; exact ⟨hc, h, rfl, by simp [hc]⟩
    · left; exact ⟨by simp [hc], hc⟩
  have hfail : ∀ e, resolveHostname w cfg.hostname = .err e →
      Run cfg w = { exit := .fatal e, logged := [], announced := [], sent := [], issued := [] } := by
    intro e he
    rcases hhost with ⟨h1, _⟩ | ⟨_, h, _, h1⟩ | ⟨hc, e2, hw, h1⟩
    · rw [h1] at he; cases he
    · rw [h1] at he; cases he
    · rw [h1] at he
      cases he
      simp [Run, hc, hw]
  have hip : ∀ h l i, resolveIP w cfg.ip = .ok i →
      ∃ l2, runIP w cfg.ip h cfg.etcd l = runAnnounce w i h cfg.etcd l2 := by
    intro h l i hi
    unfold resolveIP at hi
    unfold runIP
    by_cases hc : cfg.ip = ""
    · simp only [hc, ne_eq, not_true_eq_false, if_false, if_true] at hi ⊢
      rw [hi]
      exact ⟨_, rfl⟩
    · simp only [hc, ne_eq, not_false_eq_true, if_true, if_false] at hi ⊢
      cases hi
      exact ⟨_, rfl⟩
  have hipfail : ∀ h l e, resolveIP w cfg.ip = .err e →
      runIP w cfg.ip h cfg.etcd l = { exit := .fatal e, logged := l, announced := [], sent := [], issued := [] } := by
    intro h l e hi
    unfold resolveIP at hi
    unfold runIP
    by_cases hc : cfg.ip = ""
    · simp only [hc, ne_eq, not_true_eq_false, if_false, if_true] at hi ⊢
      rw [hi]
    · simp only [hc, ne_eq, not_false_eq_true, if_true, if_false] at hi
      cases hi
  have hipcases : (∃ i, resolveIP w cfg.ip = .ok i) ∨ (∃ e, resolveIP w cfg.ip = .err e) := by
    cases hr : resolveIP w cfg.ip with
    | ok i => exact Or.inl ⟨i, rfl⟩
    | err e => exact Or.inr ⟨e, rfl⟩
    | panic msg =>
      exfalso
      unfold resolveIP at hr
      by_cases hc : cfg.ip = ""
      · simp only [hc, ne_eq, not_true_eq_false, if_false] at hr
        exact getIP_no_panic w msg hr
      · simp [hc] at hr
  have hhostcases : (∃ h, resolveHostname w cfg.hostname = .ok h)
      ∨ (∃ e, resolveHostname w cfg.hostname = .err e) := by
    rcases hhost with ⟨h1, _⟩ | ⟨_, h, _, h1⟩ | ⟨_, e, _, h1⟩
    · exact Or.inl ⟨_, h1⟩
    · exact Or.inl ⟨_, h1⟩
    · exact Or.inr ⟨_, h1⟩
  refine ⟨?_, ?_, ?_, ?_, ?_⟩
  · constructor
    · intro hex
      rcases hhostcases with ⟨h, hh⟩ | ⟨e, he⟩
      · obtain ⟨l, hl⟩ := hrun h hh
        rcases hipcases with ⟨i, hi⟩ | ⟨e, he⟩
        · obtain ⟨l2, hl2⟩ := hip h l i hi
          refine ⟨h, i, hh, hi, ?_⟩
          rw [hl, hl2, (runAnnounce_exit w i h cfg.etcd l2).1] at hex
          cases ha : (announceIP w i h cfg.etcd noTraffic).1 with
          | none => rfl
          | some e => rw [ha] at hex; cases hex
        · rw [hl, hipfail h l e he] at hex
          cases hex
      · rw [hfail e he] at hex
        cases hex
    · rintro ⟨h, i, hh, hi, ha⟩
      obtain ⟨l, hl⟩ := hrun h hh
      obtain ⟨l2, hl2⟩ := hip h l i hi
      rw [hl, hl2, (runAnnounce_exit w i h cfg.etcd l2).1, ha]
  · intro e he
    rw [hfail e he]
    exact ⟨rfl, rfl, rfl, rfl⟩
  · intro h e hh he
    obtain ⟨l, hl⟩ := hrun h hh
    rw [hl, hipfail h l e he]
    exact ⟨rfl, rfl, rfl, rfl⟩
  · intro h i e hh hi ha
    obtain ⟨l, hl⟩ := hrun h hh
    obtain ⟨l2, hl2⟩ := hip h l i hi
    have hx := runAnnounce_exit w i h cfg.etcd l2
    rw [hl, hl2]
    refine ⟨?_, hx.2.1, hx.2.2.1, hx.2.2.2⟩
    rw [hx.1, ha]
  · intro msg hex
    rcases hhostcases with ⟨h, hh⟩ | ⟨e, he⟩
    · obtain ⟨l, hl⟩ := hrun h hh
      rcases hipcases with ⟨i, hi⟩ | ⟨e, he⟩
      · obtain ⟨l2, hl2⟩ := hip h l i hi
        rw [hl, hl2, (runAnnounce_exit w i h cfg.etcd l2).1] at hex
        cases ha : (announceIP w i h cfg.etcd noTraffic).1 with
        | none => rw [ha] at hex; cases hex
        | some e => rw [ha] at hex; cases hex
      · rw [hl, hipfail h l e he] at hex
        cases hex
    · rw [hfail e he] at hex
      cases hex

/-- C10: for every list of address strings `getIP` returns without panicking, element 0 of
the split of any string exists, and a returned address has no `/` and is a prefix of the entry
it was taken from, the first entry of the list other than `127.0.0.1/8`. -/
theorem getIP_safe (w : World) :
    (∀ msg, getIP w ≠ .panic msg)
    ∧ (∀ a : String, 0 < (Split a '/').length ∧ ∃ s, (Split a '/')[0]? = some s)
    ∧ (∀ addrs : List String,
        (∃ ip, getIP (withAddrs w addrs) = .ok ip)
          ∨ getIP (withAddrs w addrs) = .err (.new "not found"))
    ∧ (∀ addrs ip, getIP (withAddrs w addrs) = .ok ip →
        '/' ∉ ip.data ∧
        ∃ pre a post, addrs = pre ++ a :: post ∧ (∀ x ∈ pre, x = "127.0.0.1/8")
          ∧ a ≠ "127.0.0.1/8" ∧ ip.data <+: a.data) := by
  refine ⟨getIP_no_panic w, ?_, ?_, ?_⟩
  · intro a
    refine ⟨?_, _, Split_zero a⟩
    simp [Split, splitChars_length]
  · intro addrs
    show (∃ ip, getIPLoop addrs = .ok ip) ∨ getIPLoop addrs = .err (.new "not found")
    rcases getIPLoop_cases addrs with ⟨_, h⟩ | ⟨_, a, _, _, _, _, h⟩
    · exact Or.inr h
    · exact Or.inl ⟨_, h⟩
  · intro addrs ip hok
    change getIPLoop addrs = .ok ip at hok
    rcases getIPLoop_cases addrs with ⟨_, h⟩ | ⟨pre, a, post, he, hp, ha, h⟩
    · rw [h] at hok; cases hok
    · rw [h] at hok
      cases hok
      exact ⟨beforeSlash_no_slash a, pre, a, post, he, hp, ha, beforeSlash_isPrefix a⟩

end SkydnsPodAnnouncer
